import Mathlib

/-!
Verification of the interactive result-set viewer of the Query desktop client.

The development shallowly embeds the viewer core:
* the cell data model and string renditions (`src/components/results/ResultsTableEnhanced.tsx`),
* the per-column filter predicate (`filterFn`, ResultsTableEnhanced.tsx lines 90-99),
* the derived table model (filter + single stable sort),
* the selection model (`rowSelection`, `toggleAllRowsSelected`, `getSelectedRowsData`),
* the CSV/JSON export paths (`exportToCSV`/`exportToJSON`, `src/hooks/useQueryExecution.ts`)
  and the copy-selected CSV path (`copyAsCSV`, ResultsTableEnhanced.tsx lines 216-231),
* the virtualization window and its spacer computation
  (`paddingTop`/`paddingBottom`, ResultsTableEnhanced.tsx lines 185-191),
* the viewer's render/state-update cycle (its `useState` cells and `useEffect` hooks).

Machine integers do not occur on the modelled paths; pixel sizes, row counts and
identities are natural numbers, cell numbers are integers.
-/

namespace Query

/-! ## Strings: lowercase, substring containment, quote doubling -/

/-- Embedding of JavaScript `String.prototype.toLowerCase` restricted to the
ASCII range actually exercised by the viewer: lowercases every character. -/
def toLowerStr (s : String) : String :=
  String.mk (s.data.map Char.toLower)

/-- Embedding of JavaScript `hay.includes(needle)`: `needle` occurs as a
contiguous substring of `hay`. -/
def containsSubstr (hay needle : String) : Bool :=
  (List.range (hay.data.length + 1)).any fun i => needle.data.isPrefixOf (hay.data.drop i)

/-- Embedding of `str.replace(/"/g, '""')`: double every double-quote. -/
def escQuotes : List Char → List Char
  | [] => []
  | c :: rest => if c = '"' then '"' :: '"' :: escQuotes rest else c :: escQuotes rest

/-- `escQuotes` lifted to `String`. -/
def escQuotesStr (s : String) : String :=
  String.mk (escQuotes s.data)

/-! ## Cell values -/

/-- A cell value of a result set: `null`, a boolean, a number, or a string.
(Opaque structured values are serialized via their literal text rendition and
are subsumed by the string constructor for the properties verified here.) -/
inductive CellValue where
  | vnull
  | vbool (b : Bool)
  | vnum (n : Int)
  | vstr (s : String)
deriving DecidableEq, Repr

/-- Embedding of JavaScript `String(value)` on the non-null cell values the
viewer stringifies (booleans as `true`/`false`, numbers in decimal, strings
as themselves); `String(null)` is the literal text `null`, though every
modelled path short-circuits on `null` before stringifying. -/
def strRendition : CellValue → String
  | .vnull => "null"
  | .vbool b => if b then "true" else "false"
  | .vnum n => toString n
  | .vstr s => s

/-- Embedding of the per-column `filterFn` of ResultsTableEnhanced.tsx
(lines 90-99): `row.getValue(columnId)` may be `undefined` (modelled as
`none`) or `null`; both are rejected, otherwise both the value's string
rendition and the filter text are lowercased and compared by substring
containment. Returns `true` when the row passes (is kept). -/
def filterFn : Option CellValue → String → Bool
  | none, _ => false
  | some .vnull, _ => false
  | some v, filterValue =>
      containsSubstr (toLowerStr (strRendition v)) (toLowerStr filterValue)

/-! ## Result snapshots and the row adapter -/

/-- Embedding of the `QueryResult` snapshot (`src/types`): ordered column
names and positionally aligned row-value sequences.  The execution duration
plays no role in the verified properties and is omitted. -/
structure QueryResult where
  columns : List String
  rows : List (List CellValue)
deriving DecidableEq, Repr

/-- Row adapter (`data` memo of ResultsTableEnhanced.tsx lines 43-52): each
source row paired with its stable positional identity (its index in the
snapshot's row sequence, which is also the TanStack default row id). -/
def adaptRows (r : QueryResult) : List (Nat × List CellValue) :=
  r.rows.enum

/-- A row's value at a column position: `row[col]`, `none` when the column
index is out of range (JavaScript `undefined`). -/
def cellAt (row : List CellValue) (col : Nat) : Option CellValue :=
  row.get? col

/-! ## Filter state and the filtered view -/

/-- The viewer's filter state: the list of active per-column filters
(column position paired with filter text, mirroring the `columnFilters`
`ColumnFiltersState` of ResultsTableEnhanced.tsx) plus the `globalFilter`
text, where the empty string means no global filter. -/
structure FilterState where
  columnFilters : List (Nat × String)
  globalFilter : String
deriving DecidableEq, Repr

/-- A row passes all active per-column filters (each applied through the
source `filterFn`; filters compose conjunctively). -/
def rowPassesColumnFilters (row : List CellValue) (cfs : List (Nat × String)) : Bool :=
  cfs.all fun cf => filterFn (cellAt row cf.1) cf.2

/-- Modelled from the spec: the global filter (library `getFilteredRowModel`
code is not under src/) — "a row is included if it is included by at least
one column's predicate using the same match rule with the global filter
text"; an empty global filter text means no global filter. -/
def rowPassesGlobal (ncols : Nat) (row : List CellValue) (g : String) : Bool :=
  if g = "" then true
  else (List.range ncols).any fun i => filterFn (cellAt row i) g

/-- A row passes the whole filter state: its active column filters AND the
global filter. -/
def passesFilters (ncols : Nat) (fs : FilterState) (row : List CellValue) : Bool :=
  rowPassesColumnFilters row fs.columnFilters && rowPassesGlobal ncols row fs.globalFilter

/-- The filtered view: adapted rows that pass the filter state, in snapshot
order, each keeping its original identity. -/
def filteredView (r : QueryResult) (fs : FilterState) : List (Nat × List CellValue) :=
  (adaptRows r).filter fun p => passesFilters r.columns.length fs p.2

/-! ## The sort comparator and a stable sort -/

/-- Strict lexicographic order on character lists (case-sensitive,
by code point), the host string ordering. -/
def charListLt : List Char → List Char → Bool
  | [], [] => false
  | [], _ :: _ => true
  | _ :: _, [] => false
  | a :: as, b :: bs => if a < b then true else if b < a then false else charListLt as bs

/-- Rank of a cell value's type, used to order values of distinct types;
`null` ranks lowest, so null sorts below every non-null value. -/
def cellRank : CellValue → Nat
  | .vnull => 0
  | .vbool _ => 1
  | .vnum _ => 2
  | .vstr _ => 3

/-- Modelled from the spec: the sort comparator (library `getSortedRowModel`
code is not under src/) — numbers compare numerically, strings
lexicographically (case-sensitive host ordering), booleans as 0/1, null
lower than any non-null value. -/
def cellLT (a b : CellValue) : Bool :=
  match a, b with
  | .vnull, .vnull => false
  | .vbool x, .vbool y => !x && y
  | .vnum x, .vnum y => decide (x < y)
  | .vstr x, .vstr y => charListLt x.data y.data
  | _, _ => decide (cellRank a < cellRank b)

/-- Insert `x` into `l`, passing only elements strictly below `x` in the
order `lt`; on ties `x` stays in front, which makes the sort stable. -/
def insertSorted (lt : α → α → Bool) (x : α) : List α → List α
  | [] => [x]
  | y :: ys => if lt y x then y :: insertSorted lt x ys else x :: y :: ys

/-- Modelled from the spec: the stable sort of the derived table model
(library `getSortedRowModel` code is not under src/; the spec requires "The
sort must be stable").  Insertion sort with ties resolved in favour of the
earlier element. -/
def stableSortBy (lt : α → α → Bool) : List α → List α
  | [] => []
  | x :: xs => insertSorted lt x (stableSortBy lt xs)

/-- The viewer's sort state: at most one (column position, descending?)
pair, mirroring the `sorting` `SortingState` of ResultsTableEnhanced.tsx. -/
abbrev SortState : Type := Option (Nat × Bool)

/-- The sort key of an identified row at a column: the row's value there,
with a missing value keyed as `null`. -/
def sortKey (col : Nat) (p : Nat × List CellValue) : CellValue :=
  (cellAt p.2 col).getD .vnull

/-- The row order induced by a (column, descending?) pair. -/
def rowLT (col : Nat) (desc : Bool) (p q : Nat × List CellValue) : Bool :=
  if desc then cellLT (sortKey col q) (sortKey col p)
  else cellLT (sortKey col p) (sortKey col q)

/-- The derived view: the filtered rows, stably sorted when a sort is
active, in natural (filtered) order otherwise. -/
def sortedView (r : QueryResult) (fs : FilterState) (ss : SortState) :
    List (Nat × List CellValue) :=
  match ss with
  | none => filteredView r fs
  | some (col, desc) => stableSortBy (rowLT col desc) (filteredView r fs)

/-- The identities of the derived view, in view order. -/
def viewIdentities (r : QueryResult) (fs : FilterState) (ss : SortState) : List Nat :=
  (sortedView r fs ss).map (·.1)

/-! ## Selection -/

/-- The viewer's `rowSelection` state (`RowSelectionState`, a record from
row id to `true`): the finite set of selected row identities.  TanStack's
mutators only ever store `true` and delete on deselect, so the record is
faithfully a set of identities. -/
abbrev SelectionState : Type := Finset Nat

/-- Embedding of `selectedRowCount` (ResultsTableEnhanced.tsx line 194):
the number of ids mapped to `true` in `rowSelection` — computed from the
selection record alone, independent of any filter. -/
def selectedRowCount (sel : SelectionState) : Nat :=
  sel.card

/-- Modelled from the spec and the library contract: `toggleAllRowsSelected
(true)` (called from the Cmd/Ctrl+A handler, the header checkbox and the
Select All button; the library code is not under src/) marks every row of
the post-filter row model selected, keeping any other already-selected
entries: the new selection is the old one united with the visible
identities. -/
def toggleAllRowsSelected (sel : SelectionState) (view : List Nat) : SelectionState :=
  sel ∪ view.toFinset

/-- Aggregate selection state relative to the current derived view. -/
inductive AggState where
  | none
  | some
  | all
deriving DecidableEq, Repr

/-- Modelled from the spec and the library contract: the header checkbox
state — `all` when the view is nonempty and every visible row is selected,
`some` when at least one visible row is selected, `none` otherwise. -/
def aggregateState (sel : SelectionState) (view : List Nat) : AggState :=
  if !view.isEmpty && view.all (fun i => decide (i ∈ sel)) then .all
  else if view.any (fun i => decide (i ∈ sel)) then .some
  else .none

/-- Embedding of `getSelectedRowsData` (ResultsTableEnhanced.tsx lines
198-202): the rows of the final (filtered and sorted) row model whose
identity is selected, in view order, stripped to their data. -/
def getSelectedRowsData (r : QueryResult) (fs : FilterState) (ss : SortState)
    (sel : SelectionState) : List (List CellValue) :=
  ((sortedView r fs ss).filter fun p => decide (p.1 ∈ sel)).map (·.2)

/-! ## CSV / JSON serialization -/

/-- Embedding of the per-cell serialization of `exportToCSV`
(useQueryExecution.ts lines 95-102): null becomes the empty field;
otherwise the string rendition, wrapped in double quotes with embedded
quotes doubled whenever it contains a comma, a double quote or a newline. -/
def exportCSVcell (cell : CellValue) : String :=
  match cell with
  | .vnull => ""
  | c =>
    let str := strRendition c
    if containsSubstr str "," || containsSubstr str "\"" || containsSubstr str "\n" then
      "\"" ++ escQuotesStr str ++ "\""
    else str

/-- Embedding of the CSV text built by `exportToCSV` (useQueryExecution.ts
lines 91-105): the header (column names joined by commas) followed by one
line per snapshot row, joined by newlines. -/
def exportCSVtext (r : QueryResult) : String :=
  String.intercalate "\n"
    (String.intercalate "," r.columns ::
      r.rows.map fun row => String.intercalate "," (row.map exportCSVcell))

/-- The CSV escaping rule exactly as the spec states it, for one cell:
"empty string if null; otherwise the value's string rendition; if that
rendition contains a comma, a double-quote, or a newline, wrap the whole
rendition in double quotes and double every embedded double quote." -/
def csvCellSpec (cell : CellValue) : String :=
  if cell = .vnull then ""
  else
    let rendition := strRendition cell
    if containsSubstr rendition "," || containsSubstr rendition "\"" ||
        containsSubstr rendition "\n" then
      "\"" ++ escQuotesStr rendition ++ "\""
    else rendition

/-- The whole-text CSV rule as the spec states it for a given row sequence:
header row = column names joined by commas, each data row = its cells
rendered by `csvCellSpec` joined by commas, rows joined by newline. -/
def csvTextSpec (columns : List String) (rows : List (List CellValue)) : String :=
  String.intercalate "\n"
    (String.intercalate "," columns ::
      rows.map fun row => String.intercalate "," (row.map csvCellSpec))

/-- Embedding of the per-cell serialization of `copyAsCSV`
(ResultsTableEnhanced.tsx lines 221-227): null becomes the empty field; a
string value is wrapped in double quotes exactly when it contains a comma
(embedded quotes are NOT doubled); any other value is emitted as the string
the joining `Array.prototype.join` produces for it. -/
def copyCSVcell (cell : CellValue) : String :=
  match cell with
  | .vnull => ""
  | .vstr s => if containsSubstr s "," then "\"" ++ s ++ "\"" else s
  | c => strRendition c

/-- Embedding of the CSV text built by `copyAsCSV` (ResultsTableEnhanced.tsx
lines 216-231) over the selected rows' data: header row of column names,
then one line per selected row. -/
def copyCSVtext (columns : List String) (selectedRows : List (List CellValue)) : String :=
  String.intercalate "\n"
    (String.intercalate "," columns ::
      selectedRows.map fun row => String.intercalate "," (row.map copyCSVcell))

/-- Embedding of the row objects built by `exportToJSON` (useQueryExecution.ts
lines 118-124): one association list per snapshot row, mapping each column
name in order to the row's raw value there. -/
def exportJSONrows (r : QueryResult) : List (List (String × Option CellValue)) :=
  r.rows.map fun row => r.columns.enum.map fun ci => (ci.2, cellAt row ci.1)

/-- Embedding of the export entry points' guard (useQueryExecution.ts lines
88-89 and 115-116): with no result present the function returns before any
serialization or download; otherwise it emits exactly one download of the
serialized text.  The return value lists the download side effects. -/
def exportToCSV (result : Option QueryResult) : List String :=
  match result with
  | none => []
  | some r => [exportCSVtext r]

/-- The same guard for `exportToJSON`, its download effect carrying the
serialized row objects. -/
def exportToJSON (result : Option QueryResult) : List (List (List (String × Option CellValue))) :=
  match result with
  | none => []
  | some r => [exportJSONrows r]

/-! ## Virtualization window -/

/-- A virtual item as the virtualizer hands it to the render loop: a row
index with its start and end pixel offsets under the uniform row-height
estimate. -/
structure VirtualItem where
  index : Nat
  startPx : Nat
  endPx : Nat
deriving DecidableEq, Repr

/-- The contiguous run of `len` virtual items beginning at row `lo`, each of
estimated height `h`. -/
def itemsFrom (lo len h : Nat) : List VirtualItem :=
  match len with
  | 0 => []
  | len' + 1 => ⟨lo, lo * h, (lo + 1) * h⟩ :: itemsFrom (lo + 1) len' h

/-- Modelled from the spec: `computeVisible` of the Virtualization Window
(the `useVirtualizer` library code is not under src/; ResultsTableEnhanced.tsx
lines 128-133 instantiate it with estimate 33 and overscan 10) — compute the
first and last row indices intersecting the scrolled viewport, clamp them to
the row range, expand by the overscan on each side clamped to the row range,
and return those rows with their pixel offsets. -/
def computeVisible (n h viewport scroll overscan : Nat) : List VirtualItem :=
  if n = 0 then []
  else
    let firstIdx := min (scroll / h) (n - 1)
    let lastIdx := min ((scroll + viewport) / h) (n - 1)
    let lo := firstIdx - overscan
    let hi := min (n - 1) (lastIdx + overscan)
    itemsFrom lo (hi + 1 - lo) h

/-- The virtualizer's total content height: row count times the uniform
estimate. -/
def totalSize (n h : Nat) : Nat := n * h

/-- Embedding of `paddingTop` (ResultsTableEnhanced.tsx line 187): the start
offset of the first virtual row, 0 when there is none. -/
def paddingTop (vs : List VirtualItem) : Nat :=
  match vs with
  | [] => 0
  | v :: _ => v.startPx

/-- Embedding of `paddingBottom` (ResultsTableEnhanced.tsx lines 188-191):
total size minus the end offset of the last virtual row, 0 when there is
none. -/
def paddingBottom (n h : Nat) (vs : List VirtualItem) : Nat :=
  match vs.getLast? with
  | none => 0
  | some v => totalSize n h - v.endPx

/-- The total rendered height of the returned virtual rows. -/
def renderedHeight (vs : List VirtualItem) : Nat :=
  (vs.map fun v => v.endPx - v.startPx).sum

/-! ## The viewer's state and render cycle -/

/-- The five `useState` cells of `ResultsTableEnhanced` (lines 35-39)
together with the scroll container's scroll offset.  Column visibility is a
list of (column position, visible?) entries mirroring `VisibilityState`. -/
structure ViewerState where
  sorting : SortState
  columnFilters : List (Nat × String)
  globalFilter : String
  columnVisibility : List (Nat × Bool)
  rowSelection : SelectionState
  scrollTop : Nat
deriving DecidableEq

/-- The viewer's initial state: every state cell empty/default, as the
`useState` initializers of ResultsTableEnhanced.tsx lines 35-39 set them at
mount. -/
def emptyViewerState : ViewerState :=
  { sorting := none
    columnFilters := []
    globalFilter := ""
    columnVisibility := []
    rowSelection := ∅
    scrollTop := 0 }

/-- The events that can reach the viewer: the snapshot prop changing to a
new reference, the state setters wired through the table options
(lines 115-119), the selection gestures, and a scroll. -/
inductive ViewerEvent where
  | newSnapshot (r : Option QueryResult)
  | setSorting (ss : SortState)
  | setColumnFilters (cfs : List (Nat × String))
  | setGlobalFilter (g : String)
  | setColumnVisibility (cv : List (Nat × Bool))
  | setRowSelection (sel : SelectionState)
  | selectAllGesture
  | escapeKey
  | scrollTo (px : Nat)

/-- The dependency tuple of the scroll-reset effect
(ResultsTableEnhanced.tsx lines 136-140): `[columnFilters, sorting,
globalFilter]`. -/
def scrollEffectDeps (s : ViewerState) : List (Nat × String) × SortState × String :=
  (s.columnFilters, s.sorting, s.globalFilter)

/-- One event applied to the viewer, before effects run.  A snapshot change
re-renders the component but — the component being neither keyed on the
snapshot nor equipped with any effect or reducer that clears state when
`result` changes — leaves every state cell as it was.  The select-all
gesture routes through `table.toggleAllRowsSelected(true)` over the derived
view of the current snapshot; Escape clears the selection only when it is
nonempty (lines 156-158). -/
def applyEvent (r : Option QueryResult) (s : ViewerState) :
    ViewerEvent → Option QueryResult × ViewerState
  | .newSnapshot r' => (r', s)
  | .setSorting ss => (r, { s with sorting := ss })
  | .setColumnFilters cfs => (r, { s with columnFilters := cfs })
  | .setGlobalFilter g => (r, { s with globalFilter := g })
  | .setColumnVisibility cv => (r, { s with columnVisibility := cv })
  | .setRowSelection sel => (r, { s with rowSelection := sel })
  | .selectAllGesture =>
      match r with
      | none => (r, s)
      | some res =>
          let view := viewIdentities res ⟨s.columnFilters, s.globalFilter⟩ s.sorting
          (r, { s with rowSelection := toggleAllRowsSelected s.rowSelection view })
  | .escapeKey =>
      if s.rowSelection = ∅ then (r, s) else (r, { s with rowSelection := ∅ })
  | .scrollTo px => (r, { s with scrollTop := px })

/-- One full render cycle: the event is applied, then the scroll-reset
effect fires exactly when its dependency tuple changed, setting the
container's scroll offset to 0 (ResultsTableEnhanced.tsx lines 136-140). -/
def step (r : Option QueryResult) (s : ViewerState) (e : ViewerEvent) :
    Option QueryResult × ViewerState :=
  let rs := applyEvent r s e
  if scrollEffectDeps rs.2 ≠ scrollEffectDeps s then
    (rs.1, { rs.2 with scrollTop := 0 })
  else rs

/-! ## Example values from the spec (§8) -/

/-- The example snapshot of spec §8: columns `[id,name]`, rows
`[(1,"b"),(2,"a"),(3,"a")]`. -/
def exRows : QueryResult :=
  ⟨["id", "name"], [[.vnum 1, .vstr "b"], [.vnum 2, .vstr "a"], [.vnum 3, .vstr "a"]]⟩

/-- The column filter `name = "a"` of spec §8 (column position 1). -/
def exFilterA : FilterState := ⟨[(1, "a")], ""⟩

/-- The empty filter state. -/
def exNoFilter : FilterState := ⟨[], ""⟩

/-! ## Helper lemmas -/

lemma charListLt_irrefl : ∀ l : List Char, charListLt l l = false
  | [] => rfl
  | a :: as => by
    unfold charListLt
    rw [if_neg (lt_irrefl a), if_neg (lt_irrefl a)]
    exact charListLt_irrefl as

lemma charListLt_asymm_eq : ∀ {x y : List Char},
    charListLt x y = false → charListLt y x = false → x = y
  | [], [], _, _ => rfl
  | [], _ :: _, h1, _ => by simp [charListLt] at h1
  | _ :: _, [], _, h2 => by simp [charListLt] at h2
  | a :: as, b :: bs, h1, h2 => by
    unfold charListLt at h1 h2
    rcases lt_trichotomy a b with hab | hab | hab
    · rw [if_pos hab] at h1; exact absurd h1 (by simp)
    · subst hab
      rw [if_neg (lt_irrefl a), if_neg (lt_irrefl a)] at h1 h2
      rw [charListLt_asymm_eq h1 h2]
    · rw [if_pos hab] at h2; exact absurd h2 (by simp)

lemma cellLT_irrefl (c : CellValue) : cellLT c c = false := by
  cases c with
  | vnull => rfl
  | vbool b => cases b <;> rfl
  | vnum n => simp [cellLT]
  | vstr s => simp [cellLT, charListLt_irrefl]

lemma cellLT_asymm_eq : ∀ {a b : CellValue}, cellLT a b = false →
    cellLT b a = false → a = b
  | .vnull, .vnull, _, _ => rfl
  | .vbool x, .vbool y, h1, h2 => by cases x <;> cases y <;> simp_all [cellLT]
  | .vnum x, .vnum y, h1, h2 => by
    simp only [cellLT, decide_eq_false_iff_not, not_lt] at h1 h2
    exact congrArg CellValue.vnum (le_antisymm h2 h1)
  | .vstr x, .vstr y, h1, h2 => by
    simp only [cellLT] at h1 h2
    exact congrArg CellValue.vstr (String.ext (charListLt_asymm_eq h1 h2))
  | .vnull, .vbool _, h1, h2 => by simp [cellLT, cellRank] at h1
  | .vnull, .vnum _, h1, h2 => by simp [cellLT, cellRank] at h1
  | .vnull, .vstr _, h1, h2 => by simp [cellLT, cellRank] at h1
  | .vbool _, .vnull, h1, h2 => by simp [cellLT, cellRank] at h2
  | .vbool _, .vnum _, h1, h2 => by simp [cellLT, cellRank] at h1
  | .vbool _, .vstr _, h1, h2 => by simp [cellLT, cellRank] at h1
  | .vnum _, .vnull, h1, h2 => by simp [cellLT, cellRank] at h2
  | .vnum _, .vbool _, h1, h2 => by simp [cellLT, cellRank] at h2
  | .vnum _, .vstr _, h1, h2 => by simp [cellLT, cellRank] at h1
  | .vstr _, .vnull, h1, h2 => by simp [cellLT, cellRank] at h2
  | .vstr _, .vbool _, h1, h2 => by simp [cellLT, cellRank] at h2
  | .vstr _, .vnum _, h1, h2 => by simp [cellLT, cellRank] at h2

variable {α β : Type}

lemma filter_insertSorted_of_ne (lt : α → α → Bool) (key : α → β) [DecidableEq β]
    (x : α) (k : β) (hx : key x ≠ k) :
    ∀ l : List α, (insertSorted lt x l).filter (fun y => decide (key y = k)) =
      l.filter (fun y => decide (key y = k))
  | [] => by simp [insertSorted, hx]
  | y :: ys => by
    unfold insertSorted
    by_cases h : lt y x = true
    · rw [if_pos h, List.filter_cons, List.filter_cons,
        filter_insertSorted_of_ne lt key x k hx ys]
    · rw [if_neg h, List.filter_cons]
      simp [hx]

lemma filter_insertSorted_of_eq (lt : α → α → Bool) (key : α → β) [DecidableEq β]
    (x : α) (k : β) (hx : key x = k)
    (hlt : ∀ y : α, key y = k → lt y x = false) :
    ∀ l : List α, (insertSorted lt x l).filter (fun y => decide (key y = k)) =
      x :: l.filter (fun y => decide (key y = k))
  | [] => by simp [insertSorted, hx]
  | y :: ys => by
    unfold insertSorted
    by_cases h : lt y x = true
    · have hy : key y ≠ k := fun hk => by rw [hlt y hk] at h; cases h
      rw [if_pos h, List.filter_cons, List.filter_cons]
      simp only [hy, decide_eq_true_eq, if_false, decide_eq_false_iff_not]
      exact filter_insertSorted_of_eq lt key x k hx hlt ys
    · rw [if_neg h, List.filter_cons]
      simp [hx]

lemma stableSortBy_filter_key (lt : α → α → Bool) (key : α → β) [DecidableEq β]
    (hkey : ∀ x y : α, key x = key y → lt x y = false) (k : β) :
    ∀ l : List α, (stableSortBy lt l).filter (fun y => decide (key y = k)) =
      l.filter (fun y => decide (key y = k))
  | [] => rfl
  | x :: xs => by
    unfold stableSortBy
    by_cases hx : key x = k
    · rw [filter_insertSorted_of_eq lt key x k hx
        (fun y hy => hkey y x (hy.trans hx.symm)),
        stableSortBy_filter_key lt key hkey k xs, List.filter_cons]
      simp [hx]
    · rw [filter_insertSorted_of_ne lt key x k hx,
        stableSortBy_filter_key lt key hkey k xs, List.filter_cons]
      simp [hx]

lemma itemsFrom_renderedHeight : ∀ (len lo h : Nat),
    renderedHeight (itemsFrom lo len h) = len * h
  | 0, _, h => by simp [itemsFrom, renderedHeight]
  | len + 1, lo, h => by
    show ((lo + 1) * h - lo * h) + renderedHeight (itemsFrom (lo + 1) len h) = (len + 1) * h
    rw [itemsFrom_renderedHeight len (lo + 1) h]
    have h1 : (lo + 1) * h = lo * h + h := Nat.succ_mul lo h
    have h2 : (len + 1) * h = len * h + h := Nat.succ_mul len h
    omega

lemma itemsFrom_paddingTop (lo len h : Nat) (hlen : len ≠ 0) :
    paddingTop (itemsFrom lo len h) = lo * h := by
  cases len with
  | zero => exact absurd rfl hlen
  | succ len' => rfl

lemma itemsFrom_getLast : ∀ (len lo h : Nat),
    (itemsFrom lo (len + 1) h).getLast? =
      some ⟨lo + len, (lo + len) * h, (lo + len + 1) * h⟩
  | 0, lo, h => by simp [itemsFrom]
  | len + 1, lo, h => by
    show (VirtualItem.mk lo (lo * h) ((lo + 1) * h) :: itemsFrom (lo + 1) (len + 1) h).getLast? = _
    unfold itemsFrom
    rw [List.getLast?_cons_cons]
    have hrec := itemsFrom_getLast len (lo + 1) h
    unfold itemsFrom at hrec
    rw [hrec]
    have hidx : lo + 1 + len = lo + (len + 1) := by omega
    rw [hidx]

lemma computeVisible_eq_itemsFrom (n h viewport scroll overscan : Nat) (hn : n ≠ 0) :
    ∃ lo hi, lo ≤ hi ∧ hi + 1 ≤ n ∧
      computeVisible n h viewport scroll overscan = itemsFrom lo (hi + 1 - lo) h := by
  have hdiv : scroll / h ≤ (scroll + viewport) / h :=
    Nat.div_le_div_right (Nat.le_add_right _ _)
  have hFn : min (scroll / h) (n - 1) ≤ n - 1 := Nat.min_le_right _ _
  have hFL : min (scroll / h) (n - 1) ≤ min ((scroll + viewport) / h) (n - 1) :=
    min_le_min hdiv le_rfl
  have hLn : min (n - 1) (min ((scroll + viewport) / h) (n - 1) + overscan) ≤ n - 1 :=
    Nat.min_le_left _ _
  refine ⟨min (scroll / h) (n - 1) - overscan,
    min (n - 1) (min ((scroll + viewport) / h) (n - 1) + overscan), ?_, ?_, ?_⟩
  · refine le_min (le_trans (Nat.sub_le _ _) hFn)
      (le_trans (le_trans (Nat.sub_le _ _) hFL) (Nat.le_add_right _ _))
  · exact Nat.succ_le_of_lt
      (lt_of_le_of_lt hLn (Nat.sub_lt (Nat.pos_of_ne_zero hn) one_pos))
  · unfold computeVisible
    rw [if_neg hn]

lemma computeVisible_spacers (n h viewport scroll overscan : Nat) :
    paddingTop (computeVisible n h viewport scroll overscan) +
      renderedHeight (computeVisible n h viewport scroll overscan) +
      paddingBottom n h (computeVisible n h viewport scroll overscan) = totalSize n h := by
  by_cases hn : n = 0
  · subst hn
    show paddingTop (computeVisible 0 h viewport scroll overscan) + _ + _ = _
    simp [computeVisible, paddingTop, renderedHeight, paddingBottom, totalSize]
  · obtain ⟨lo, hi, hlohi, hhin, heq⟩ :=
      computeVisible_eq_itemsFrom n h viewport scroll overscan hn
    rw [heq]
    obtain ⟨len', hlen'⟩ : ∃ len', hi + 1 - lo = len' + 1 := ⟨hi - lo, by omega⟩
    rw [hlen', itemsFrom_paddingTop _ _ _ (by omega), itemsFrom_renderedHeight]
    simp only [paddingBottom, itemsFrom_getLast]
    have hsum : lo + len' + 1 = hi + 1 := by omega
    have e1 : lo * h + (len' + 1) * h = (lo + len' + 1) * h := by
      rw [← Nat.add_mul]; congr 1
    have e2 : (lo + len' + 1) * h ≤ n * h := by
      rw [hsum]; exact Nat.mul_le_mul_right h hhin
    unfold totalSize
    omega

lemma exportCSVcell_eq_spec (cell : CellValue) : exportCSVcell cell = csvCellSpec cell := by
  cases cell <;> simp [exportCSVcell, csvCellSpec]

lemma exportCSVtext_eq_spec (r : QueryResult) :
    exportCSVtext r = csvTextSpec r.columns r.rows := by
  unfold exportCSVtext csvTextSpec
  rw [funext exportCSVcell_eq_spec]

/-! ## The claims -/

/-- C1 (amended): the Export path's CSV serialization follows the exact
escaping rule of the spec, cell by cell and for the whole text; the
Copy-selected path does not (see the counterexample). -/
theorem C1_export_csv_follows_exact_rule :
    (∀ cell : CellValue, exportCSVcell cell = csvCellSpec cell) ∧
    (∀ r : QueryResult, exportCSVtext r = csvTextSpec r.columns r.rows) :=
  ⟨exportCSVcell_eq_spec, exportCSVtext_eq_spec⟩

/-- C1 counterexample: on the string cell `He said "hi"` the Copy-selected
path emits the rendition unquoted (it only quotes on commas and never
doubles quotes), violating the exact CSV escaping rule the claim asserts
for both paths. -/
theorem C1_copy_path_violates_csv_rule :
    copyCSVcell (.vstr "He said \"hi\"") ≠ csvCellSpec (.vstr "He said \"hi\"") ∧
    copyCSVtext ["msg"] [[.vstr "He said \"hi\""]] ≠
      csvTextSpec ["msg"] [[.vstr "He said \"hi\""]] ∧
    copyCSVcell (.vstr "He said \"hi\"") = "He said \"hi\"" ∧
    csvCellSpec (.vstr "He said \"hi\"") = "\"He said \"\"hi\"\"\"" := by
  refine ⟨by decide, by decide, by decide, by decide⟩

/-- C2 (amended): both export entry points serialize exactly the rows of
the full snapshot, in snapshot order — not the derived view: the CSV
download is the spec-rule serialization of `r.rows`, and the JSON download
carries one object per snapshot row. -/
theorem C2_export_serializes_snapshot_rows :
    (∀ r : QueryResult, exportToCSV (some r) = [csvTextSpec r.columns r.rows]) ∧
    (∀ r : QueryResult, exportToJSON (some r) =
      [r.rows.map fun row => r.columns.enum.map fun ci => (ci.2, cellAt row ci.1)]) :=
  ⟨fun r => congrArg (fun t => [t]) (exportCSVtext_eq_spec r), fun _ => rfl⟩

/-- C2 counterexample: with snapshot rows `b, a` and the column filter
`name = "a"` the derived view is just `a`, yet `exportToCSV` downloads the
serialization of both snapshot rows, so the export does not serialize the
derived view. -/
theorem C2_export_ignores_derived_view :
    exportToCSV (some ⟨["name"], [[.vstr "b"], [.vstr "a"]]⟩) ≠
      [csvTextSpec ["name"]
        ((sortedView ⟨["name"], [[.vstr "b"], [.vstr "a"]]⟩ ⟨[(0, "a")], ""⟩ none).map (·.2))] := by
  decide

/-- C3: evaluating the viewer's render cycle at a snapshot change: with a
nonempty selection, an active column filter, an active sort and a global
filter, replacing the snapshot leaves every one of the four state records
exactly as it was — in particular the selection does not reset to empty,
contradicting the claimed reset-on-new-snapshot invariant. -/
theorem C3_snapshot_change_retains_state :
    (step (some exRows)
        { emptyViewerState with
            rowSelection := ({0} : Finset Nat), columnFilters := [(1, "a")],
            sorting := some (1, false), globalFilter := "g" }
        (.newSnapshot (some ⟨["k"], [[.vnum 9]]⟩))).2 =
      { emptyViewerState with
          rowSelection := ({0} : Finset Nat), columnFilters := [(1, "a")],
          sorting := some (1, false), globalFilter := "g" } ∧
    ({0} : Finset Nat) ≠ (∅ : Finset Nat) :=
  ⟨rfl, by decide⟩

/-- C4: after the select-all gesture an identity is selected iff it was
already selected or lies in the derived view; from an empty selection the
gesture selects exactly the derived-view identities; on the spec's 2-of-3
example it selects exactly identities 1 and 2 — not the full snapshot's
identity set — and the aggregate state reports `all` relative to the
visible set. -/
theorem C4_select_all_selects_derived_view :
    (∀ (res : QueryResult) (s : ViewerState) (i : Nat),
      i ∈ (applyEvent (some res) s .selectAllGesture).2.rowSelection ↔
        i ∈ s.rowSelection ∨
          i ∈ viewIdentities res ⟨s.columnFilters, s.globalFilter⟩ s.sorting) ∧
    (∀ (res : QueryResult) (s : ViewerState), s.rowSelection = ∅ →
      (applyEvent (some res) s .selectAllGesture).2.rowSelection =
        (viewIdentities res ⟨s.columnFilters, s.globalFilter⟩ s.sorting).toFinset) ∧
    (applyEvent (some exRows) { emptyViewerState with columnFilters := [(1, "a")] }
        .selectAllGesture).2.rowSelection = ({1, 2} : Finset Nat) ∧
    ({1, 2} : Finset Nat) ≠ ((adaptRows exRows).map Prod.fst).toFinset ∧
    aggregateState ({1, 2} : Finset Nat) (viewIdentities exRows exFilterA none) = .all := by
  refine ⟨?_, ?_, by decide, by decide, by decide⟩
  · intro res s i
    simp [applyEvent, toggleAllRowsSelected]
  · intro res s h
    simp [applyEvent, toggleAllRowsSelected, h]

/-- C4 witness: from the empty initial selection, the select-all gesture on
the example snapshot selects exactly the derived-view identities. -/
theorem C4_select_all_witness :
    (applyEvent (some exRows) emptyViewerState .selectAllGesture).2.rowSelection =
      (viewIdentities exRows ⟨[], ""⟩ none).toFinset :=
  C4_select_all_selects_derived_view.2.1 exRows emptyViewerState rfl

/-- C5: the per-column filter predicate excludes a row precisely when its
value at the column is undefined or null, or the lowercased string
rendition of the value does not contain the lowercased filter text. -/
theorem C5_filter_predicate_characterization :
    (∀ f : String, filterFn none f = false ∧ filterFn (some .vnull) f = false) ∧
    (∀ (c : CellValue) (f : String), c ≠ .vnull →
      (filterFn (some c) f = false ↔
        containsSubstr (toLowerStr (strRendition c)) (toLowerStr f) = false)) := by
  refine ⟨fun f => ⟨rfl, rfl⟩, ?_⟩
  intro c f hc
  cases c with
  | vnull => exact absurd rfl hc
  | vbool b => exact Iff.rfl
  | vnum n => exact Iff.rfl
  | vstr s => exact Iff.rfl

/-- C5 witness: on the non-null cell `Hello` with filter text `ELL` the
characterization applies and the row passes (case-insensitive substring
match). -/
theorem C5_filter_witness :
    (filterFn (some (.vstr "Hello")) "ELL" = false ↔
      containsSubstr (toLowerStr (strRendition (.vstr "Hello"))) (toLowerStr "ELL") = false) ∧
    filterFn (some (.vstr "Hello")) "ELL" = true :=
  ⟨C5_filter_predicate_characterization.2 (.vstr "Hello") "ELL" (by decide), by decide⟩

/-- C6: the table sort is stable — for every filtered row sequence and
every active (column, direction), the subsequence of rows carrying any
fixed sort key is unchanged by sorting, and rows whose keys compare equal
under the comparator have equal keys; on the spec's example, sorting
ascending by `name` yields `[(2,"a"),(3,"a"),(1,"b")]` with the tie in
original relative order. -/
theorem C6_sort_stable :
    (∀ (col : Nat) (desc : Bool) (l : List (Nat × List CellValue)) (k : CellValue),
      (stableSortBy (rowLT col desc) l).filter (fun p => decide (sortKey col p = k)) =
        l.filter (fun p => decide (sortKey col p = k))) ∧
    (∀ (col : Nat) (desc : Bool) (p q : Nat × List CellValue),
      rowLT col desc p q = false → rowLT col desc q p = false →
        sortKey col p = sortKey col q) ∧
    sortedView exRows exNoFilter (some (1, false)) =
      [(1, [.vnum 2, .vstr "a"]), (2, [.vnum 3, .vstr "a"]), (0, [.vnum 1, .vstr "b"])] := by
  refine ⟨?_, ?_, by decide⟩
  · intro col desc l k
    apply stableSortBy_filter_key (rowLT col desc) (sortKey col)
    intro x y hxy
    cases desc <;> simp only [rowLT, Bool.false_eq_true, if_false, if_true] <;>
      rw [hxy] <;> exact cellLT_irrefl _
  · intro col desc p q h1 h2
    cases desc <;> simp only [rowLT, Bool.false_eq_true, if_false, if_true] at h1 h2
    · exact cellLT_asymm_eq h1 h2
    · exact cellLT_asymm_eq h2 h1

/-- C6 witness: two rows with the equal name key `a` compare equal under
the ascending comparator on the name column, hence carry equal sort keys. -/
theorem C6_sort_witness :
    sortKey 1 (0, [.vnum 1, .vstr "a"]) = sortKey 1 (5, [.vnum 9, .vstr "a"]) :=
  C6_sort_stable.2.1 1 false _ _ (by decide) (by decide)

/-- C7: a filter-state change (per-column or global) never alters the
selection state; in the spec's scenario, with identity 0 selected and the
`name = "a"` filter hiding it, the selected count stays 1 while identity 0
is absent from the derived view, and with the filter cleared the
copy-selected output contains that row again. -/
theorem C7_selection_persists_under_filter :
    (∀ (r : Option QueryResult) (s : ViewerState) (cfs : List (Nat × String)),
      (step r s (.setColumnFilters cfs)).2.rowSelection = s.rowSelection) ∧
    (∀ (r : Option QueryResult) (s : ViewerState) (g : String),
      (step r s (.setGlobalFilter g)).2.rowSelection = s.rowSelection) ∧
    selectedRowCount ({0} : Finset Nat) = 1 ∧
    (0 : Nat) ∉ viewIdentities exRows exFilterA none ∧
    getSelectedRowsData exRows exNoFilter none ({0} : Finset Nat) = [[.vnum 1, .vstr "b"]] ∧
    copyCSVtext exRows.columns
      (getSelectedRowsData exRows exNoFilter none ({0} : Finset Nat)) = "id,name\n1,b" := by
  refine ⟨?_, ?_, by decide, by decide, by decide, by decide⟩
  · intro r s cfs
    unfold step
    dsimp only [applyEvent]
    split <;> rfl
  · intro r s g
    unfold step
    dsimp only [applyEvent]
    split <;> rfl

/-- C8: for every row count, uniform height estimate, viewport, scroll
offset and overscan, the leading spacer plus the rendered rows' total
height plus the trailing spacer equals the total content height
`n × h`; at the spec's instance (1000 rows, 33px estimate, 330px viewport,
overscan 10) the sum is `1000 × 33` and 21 rows are returned. -/
theorem C8_virtualizer_spacer_identity :
    (∀ n h viewport scroll overscan : Nat,
      paddingTop (computeVisible n h viewport scroll overscan) +
        renderedHeight (computeVisible n h viewport scroll overscan) +
        paddingBottom n h (computeVisible n h viewport scroll overscan) = totalSize n h) ∧
    paddingTop (computeVisible 1000 33 330 0 10) +
        renderedHeight (computeVisible 1000 33 330 0 10) +
        paddingBottom 1000 33 (computeVisible 1000 33 330 0 10) = 1000 * 33 ∧
    (computeVisible 1000 33 330 0 10).length = 21 :=
  ⟨computeVisible_spacers, by decide, by decide⟩

/-- C9: every render cycle in which the per-column filter list, the global
filter text or the sort state actually changed ends with the scroll offset
reset to 0 — the scroll-reset effect depends on exactly those three state
records. -/
theorem C9_scroll_reset_on_state_change :
    (∀ (r : Option QueryResult) (s : ViewerState) (cfs : List (Nat × String)),
      cfs ≠ s.columnFilters → (step r s (.setColumnFilters cfs)).2.scrollTop = 0) ∧
    (∀ (r : Option QueryResult) (s : ViewerState) (g : String),
      g ≠ s.globalFilter → (step r s (.setGlobalFilter g)).2.scrollTop = 0) ∧
    (∀ (r : Option QueryResult) (s : ViewerState) (ss : SortState),
      ss ≠ s.sorting → (step r s (.setSorting ss)).2.scrollTop = 0) := by
  refine ⟨?_, ?_, ?_⟩
  · intro r s x hx
    unfold step
    dsimp only [applyEvent]
    rw [if_pos fun heq => hx (congrArg (fun d => d.1) heq)]
  · intro r s x hx
    unfold step
    dsimp only [applyEvent]
    rw [if_pos fun heq => hx (congrArg (fun d => d.2.2) heq)]
  · intro r s x hx
    unfold step
    dsimp only [applyEvent]
    rw [if_pos fun heq => hx (congrArg (fun d => d.2.1) heq)]

/-- C9 witness: setting a column filter from the empty state resets the
scroll offset to 0. -/
theorem C9_scroll_reset_witness :
    (step none emptyViewerState (.setColumnFilters [(0, "a")])).2.scrollTop = 0 :=
  C9_scroll_reset_on_state_change.1 none emptyViewerState [(0, "a")] (by decide)

/-- C10: with no result snapshot present, both export entry points return
without any download side effect. -/
theorem C10_export_noop_without_result :
    exportToCSV none = [] ∧ exportToJSON none = [] :=
  ⟨rfl, rfl⟩

end Query
